import Mathlib

/-!
Shallow embedding of `orbitals.py`: the hydrogen-like orbital density
pipeline (radial wavefunction, spherical harmonic, 3D grid sampling,
squared-magnitude density, half-space visibility mask).

Modelling conventions:
  * numpy float64 values are idealized as exact real numbers (`ℝ`); the
    grid coordinates produced by `np.linspace`/`np.meshgrid` are exact
    rationals (`ℚ`), cast to `ℝ` where analytic functions consume them;
  * IEEE NaN is modelled as `none` in `Option ℝ` / `Option ℂ`, and the
    arithmetic that can produce or propagate NaN is threaded through
    `Option`;
  * a Python exception raised by a library call is modelled with
    `Except PyError`.
-/

namespace Orbitals

/-- A Python-level exception escaping `radial_wavefunction`, the one source
function that can raise.  With `n = 0`, the pure-Python scalar division
`2/(n*a0)` in the norm computation (source line 18) raises
`ZeroDivisionError` — before `genlaguerre` on line 19 is reached.  With
`n ≠ 0`, `scipy.special.genlaguerre` raises `ValueError` when its degree
`n-l-1` is negative or its parameter alpha `2l+1` is ≤ -1; no other division
on the path raises, because the remaining divisions are numpy array or
numpy-scalar divisions, which produce inf/NaN with a warning instead. -/
inductive PyError
  | valueError
  | zeroDivisionError
deriving DecidableEq

/-- Model of `scipy.special.factorial`: `k!` for `k ≥ 0` and `0` for negative
integer arguments (scipy returns `0.0` there, it does not raise). -/
noncomputable def sfactorial (k : ℤ) : ℝ :=
  if k < 0 then 0 else (Nat.factorial k.toNat : ℝ)

/-- Coefficient of `x^i` in the generalized Laguerre polynomial
`L_k^{(α)}(x) = ∑_{i=0}^{k} (-1)^i C(k+α, k-i) x^i / i!`, the polynomial
`scipy.special.genlaguerre(k, α)` returns (here α is the natural `2l+1`). -/
def glCoeff (k α i : ℕ) : ℚ :=
  (-1) ^ i * (Nat.choose (k + α) (k - i) : ℚ) / (Nat.factorial i : ℚ)

/-- Evaluation of `scipy.special.genlaguerre(k, α)` at a real point. -/
noncomputable def genlaguerreEval (k α : ℕ) (x : ℝ) : ℝ :=
  ∑ i ∈ Finset.range (k + 1), (glCoeff k α i : ℝ) * x ^ i

/-- Bohr radius, `a0 = 1.0` in the source (atomic units). -/
noncomputable def a0 : ℝ := 1

/-- The source's epsilon `1e-10` used to floor the radius. -/
noncomputable def floatEps : ℝ := 1 / 10 ^ 10

/-- The value `radial_wavefunction(n, l, r)` computes once `genlaguerre` has
been constructed successfully (source lines 15-20): the radius is floored at
`1e-10`, then `rho = 2 r / (n a0)`,
`norm = sqrt((2/(n a0))^3 * (n-l-1)! / (2 n (n+l)!))` with scipy's factorial,
and the result is `norm * exp(-rho/2) * rho^l * L(rho)` with
`L = genlaguerre(n-l-1, 2l+1)`. -/
noncomputable def radialValue (n l : ℤ) (r : ℝ) : ℝ :=
  let rf := max r floatEps
  let rho := 2 * rf / ((n : ℝ) * a0)
  let nrm := Real.sqrt ((2 / ((n : ℝ) * a0)) ^ 3 * sfactorial (n - l - 1) /
    (2 * (n : ℝ) * sfactorial (n + l)))
  let L := genlaguerreEval (n - l - 1).toNat (2 * l + 1).toNat rho
  nrm * Real.exp (-rho / 2) * rho ^ l.toNat * L

/-- Source `radial_wavefunction` on a single radius, with the source's
execution order: line 18's scalar division `2/(n*a0)` raises
`ZeroDivisionError` when `n = 0`, before the `genlaguerre(n-l-1, 2l+1)`
constructor on line 19, which raises `ValueError` iff the degree `n-l-1` is
negative or the parameter `2l+1` is ≤ -1; otherwise the value `radialValue`
is returned. -/
noncomputable def radial_wavefunction (n l : ℤ) (r : ℝ) : Except PyError ℝ :=
  if n = 0 then Except.error PyError.zeroDivisionError
  else if n - l - 1 < 0 ∨ 2 * l + 1 ≤ -1 then Except.error PyError.valueError
  else Except.ok (radialValue n l r)

/-- Source `radial_wavefunction` applied elementwise to an array of radii
(numpy broadcasts; the output has the shape of the input), with the same two
failure modes in the same order as `radial_wavefunction`. -/
noncomputable def radialArray (n l : ℤ) {ι : Type} (r : ι → ℝ) :
    Except PyError (ι → ℝ) :=
  if n = 0 then Except.error PyError.zeroDivisionError
  else if n - l - 1 < 0 ∨ 2 * l + 1 ≤ -1 then Except.error PyError.valueError
  else Except.ok (fun t => radialValue n l (r t))

/-- The radial formula as section 4.2 of the spec words it: `rho = 2r/n` after
flooring `r` at `1e-10`, `norm = sqrt((2/n)^3 (n-l-1)! / (2n (n+l)!))`, and the
generalized Laguerre polynomial of degree `n-l-1` with parameter `2l+1`;
stated with genuine naturals' factorials, to be compared with `radialValue`
(which uses scipy's negative-argument-tolerant factorial and `a0`). -/
noncomputable def radialSpec (n l : ℤ) (r : ℝ) : ℝ :=
  let rho := 2 * max r floatEps / (n : ℝ)
  Real.sqrt ((2 / (n : ℝ)) ^ 3 * ((n - l - 1).toNat.factorial : ℝ) /
      (2 * (n : ℝ) * ((n + l).toNat.factorial : ℝ))) *
    Real.exp (-rho / 2) * rho ^ l.toNat *
    genlaguerreEval (n - l - 1).toNat (2 * l + 1).toNat rho

/-- Formal derivative of a real polynomial (plain function form). -/
noncomputable def polyD (p : Polynomial ℝ) : Polynomial ℝ := Polynomial.derivative p

/-- Legendre polynomial `P_l` by the Rodrigues formula
`P_l = 1/(2^l l!) d^l/dx^l (x^2-1)^l`; used to model the spherical harmonic
returned by `scipy.special.sph_harm`. -/
noncomputable def legendreP (l : ℕ) : Polynomial ℝ :=
  Polynomial.C (1 / (2 ^ l * (Nat.factorial l : ℝ))) *
    polyD^[l] ((Polynomial.X ^ 2 - 1) ^ l)

/-- Associated Legendre function `P_l^m` for `0 ≤ m ≤ l`, with the
Condon-Shortley phase: `(-1)^m (1-x^2)^{m/2} d^m/dx^m P_l(x)`. -/
noncomputable def assocLegendre (l mA : ℕ) (x : ℝ) : ℝ :=
  (-1) ^ mA * Real.sqrt (1 - x ^ 2) ^ mA * (polyD^[mA] (legendreP l)).eval x

/-- Model of `scipy.special.sph_harm(m, l, azim, polar)` on in-range
arguments `|m| ≤ l` (physics convention, orthonormal on the sphere,
Condon-Shortley phase): `Y_l^m = N_l^{|m|} P_l^{|m|}(cos polar) e^{i m azim}`,
with the sign `(-1)^{|m|}` relating negative orders to positive ones. -/
noncomputable def sphHarmVal (m : ℤ) (l : ℕ) (azim polar : ℝ) : ℂ :=
  let mA := m.natAbs
  let nc : ℝ := Real.sqrt ((2 * (l : ℝ) + 1) / (4 * Real.pi) *
    (Nat.factorial (l - mA) : ℝ) / (Nat.factorial (l + mA) : ℝ))
  let p : ℝ := assocLegendre l mA (Real.cos polar)
  let sgn : ℝ := if m < 0 then (-1) ^ mA else 1
  ((sgn * nc * p : ℝ) : ℂ) * Complex.exp (Complex.I * (m : ℂ) * (azim : ℂ))

/-- Model of `scipy.special.sph_harm(m, l, azim, polar)`: out-of-range orders
`|m| > l` (which subsumes `l < 0`) yield NaN (`none`) rather than raising, and
a NaN polar angle propagates.  The azimuth produced by `np.arctan2` is always
a genuine real, so it is passed as a plain `ℝ`. -/
noncomputable def sph_harm (m l : ℤ) (azim : ℝ) (polar : Option ℝ) : Option ℂ :=
  if l < |m| then none
  else Option.map (fun θ => sphHarmVal m l.toNat azim θ) polar

/-- Source `angular_wavefunction(l, m, theta, phi)`: returns
`sph_harm(m, l, phi, theta)` (the argument swap is the source's, matching
scipy's azimuth-first calling convention). -/
noncomputable def angular_wavefunction (l m : ℤ) (theta : Option ℝ) (phi : ℝ) :
    Option ℂ :=
  sph_harm m l phi theta

/-- Model of `np.linspace(-g, g, N)`: point `i` is `-g + i * (2g / (N-1))`.
For `N = 1` the rational division by `0` yields `0`, so the single sample is
`-g`, exactly numpy's `[start]`; for `N = 0` there is no index. -/
def linspace (g : ℚ) (N : ℕ) (i : Fin N) : ℚ :=
  -g + ((i : ℕ) : ℚ) * (2 * g / ((N : ℚ) - 1))

/-- `X` of `np.meshgrid(x, y, z, indexing='ij')`: varies with the first index. -/
def gridX (g : ℚ) (N : ℕ) (i j k : Fin N) : ℚ := linspace g N i

/-- `Y` of the meshgrid: varies with the second index. -/
def gridY (g : ℚ) (N : ℕ) (i j k : Fin N) : ℚ := linspace g N j

/-- `Z` of the meshgrid: varies with the third index. -/
def gridZ (g : ℚ) (N : ℕ) (i j k : Fin N) : ℚ := linspace g N k

/-- The exact squared radius `X^2 + Y^2 + Z^2` at a grid point (a rational,
so vanishing at the origin is decidable). -/
def r2 (g : ℚ) (N : ℕ) (i j k : Fin N) : ℚ :=
  gridX g N i j k ^ 2 + gridY g N i j k ^ 2 + gridZ g N i j k ^ 2

/-- `r = np.sqrt(X**2 + Y**2 + Z**2)` at a grid point. -/
noncomputable def gridR (g : ℚ) (N : ℕ) (i j k : Fin N) : ℝ :=
  Real.sqrt ((r2 g N i j k : ℝ))

/-- Model of `np.clip(z / r, -1, 1)` under IEEE semantics: for `r ≠ 0` the
quotient clipped into `[-1, 1]`; for `r = 0` with `z = 0` the quotient is
`0/0 = NaN` (`none`); for `r = 0` with `z ≠ 0` the quotient is `±∞`, which
`np.clip` sends to `±1` (that branch is unreachable in this program, where
`r = 0` forces `z = 0`). -/
noncomputable def clipDiv (z r : ℝ) : Option ℝ :=
  if r = 0 then (if z = 0 then none else some (if 0 < z then 1 else -1))
  else some (min 1 (max (-1) (z / r)))

/-- `theta = np.arccos(np.clip(Z / r, -1, 1))` at a grid point.  Note the
radius used here is the raw `r`, not a floored one: at the origin this is
`arccos(NaN) = NaN`. -/
noncomputable def gridTheta (g : ℚ) (N : ℕ) (i j k : Fin N) : Option ℝ :=
  Option.map Real.arccos (clipDiv ((gridZ g N i j k : ℝ)) (gridR g N i j k))

/-- Model of `np.arctan2(y, x)`: the argument of the complex number `x + iy`
(in `(-π, π]`, with `atan2 0 0 = 0` as in numpy). -/
noncomputable def atan2 (y x : ℝ) : ℝ := Complex.arg (x + y * Complex.I)

/-- `phi = np.arctan2(Y, X)` at a grid point; always a genuine real. -/
noncomputable def gridPhi (g : ℚ) (N : ℕ) (i j k : Fin N) : ℝ :=
  atan2 ((gridY g N i j k : ℝ)) ((gridX g N i j k : ℝ))

/-- `psi = R * Y_ang` at a grid point: the real radial value times the complex
spherical harmonic; NaN (`none`) in the angular factor propagates. -/
noncomputable def psiVal (n l m : ℤ) (g : ℚ) (N : ℕ) (i j k : Fin N) : Option ℂ :=
  Option.map (fun y => ((radialValue n l (gridR g N i j k) : ℝ) : ℂ) * y)
    (angular_wavefunction l m (gridTheta g N i j k) (gridPhi g N i j k))

/-- `density = np.abs(psi)**2` at a grid point, before the visibility mask. -/
noncomputable def densityPre (n l m : ℤ) (g : ℚ) (N : ℕ) (i j k : Fin N) :
    Option ℝ :=
  Option.map (fun p => Complex.abs p ^ 2) (psiVal n l m g N i j k)

/-- The returned density: `density[X >= 0] = 0` overwrites the masked
half-space with exact zeros after `densityPre` has been formed. -/
noncomputable def densityField (n l m : ℤ) (g : ℚ) (N : ℕ) (i j k : Fin N) :
    Option ℝ :=
  if 0 ≤ gridX g N i j k then some 0 else densityPre n l m g N i j k

/-- The tuple `(X, Y, Z, density)` returned by `compute_density`; the index
type `Fin N` on each of the three axes records the `N × N × N` shape. -/
structure OrbitalField (N : ℕ) where
  X : Fin N → Fin N → Fin N → ℚ
  Y : Fin N → Fin N → Fin N → ℚ
  Z : Fin N → Fin N → Fin N → ℚ
  density : Fin N → Fin N → Fin N → Option ℝ

/-- Source `compute_density(n, l, m, grid_range, grid_points)`: build the
grids, call the radial evaluator on the radius array (the only call that can
raise: `ZeroDivisionError` at `n = 0`, else `genlaguerre`'s `ValueError` when
`l` is out of range), combine with the angular part into `|psi|^2` and apply
the mask. -/
noncomputable def compute_density (n l m : ℤ) (grid_range : ℚ) (grid_points : ℕ) :
    Except PyError (OrbitalField grid_points) :=
  match radialArray n l
      (fun t : Fin grid_points × Fin grid_points × Fin grid_points =>
        gridR grid_range grid_points t.1 t.2.1 t.2.2) with
  | Except.error e => Except.error e
  | Except.ok R => Except.ok
      { X := gridX grid_range grid_points
        Y := gridY grid_range grid_points
        Z := gridZ grid_range grid_points
        density := fun i j k =>
          if 0 ≤ gridX grid_range grid_points i j k then some 0
          else Option.map (fun p => Complex.abs p ^ 2)
            (Option.map (fun y => ((R (i, j, k) : ℝ) : ℂ) * y)
              (angular_wavefunction l m (gridTheta grid_range grid_points i j k)
                (gridPhi grid_range grid_points i j k))) }

/-! Helper lemmas shared by the claim theorems. -/

theorem valid_no_raise {n l : ℤ} (h0 : 0 ≤ l) (h1 : l ≤ n - 1) :
    ¬(n - l - 1 < 0 ∨ 2 * l + 1 ≤ -1) := by omega

theorem compute_density_ok (n l m : ℤ) (g : ℚ) (N : ℕ)
    (h0 : 0 ≤ l) (h1 : l ≤ n - 1) :
    compute_density n l m g N =
      Except.ok ⟨gridX g N, gridY g N, gridZ g N, densityField n l m g N⟩ := by
  unfold compute_density radialArray
  rw [if_neg (by omega : ¬ n = 0), if_neg (valid_no_raise h0 h1)]
  rfl

theorem compute_density_err_zero (n l m : ℤ) (g : ℚ) (N : ℕ) (h : n = 0) :
    compute_density n l m g N = Except.error PyError.zeroDivisionError := by
  unfold compute_density radialArray
  rw [if_pos h]

theorem compute_density_err_value (n l m : ℤ) (g : ℚ) (N : ℕ)
    (hn : n ≠ 0) (h : l < 0 ∨ n - 1 < l) :
    compute_density n l m g N = Except.error PyError.valueError := by
  unfold compute_density radialArray
  rw [if_neg hn, if_pos (by omega)]

theorem r2_pos_of_X_neg {g : ℚ} {N : ℕ} {i j k : Fin N}
    (h : gridX g N i j k < 0) : 0 < r2 g N i j k := by
  have hx : 0 < gridX g N i j k ^ 2 := pow_two_pos_of_ne_zero (ne_of_lt h)
  have hy := sq_nonneg (gridY g N i j k)
  have hz := sq_nonneg (gridZ g N i j k)
  unfold r2
  nlinarith

theorem gridR_pos {g : ℚ} {N : ℕ} {i j k : Fin N}
    (h : 0 < r2 g N i j k) : 0 < gridR g N i j k := by
  unfold gridR
  have : (0:ℝ) < (r2 g N i j k : ℝ) := by exact_mod_cast h
  positivity

theorem gridR_zero {g : ℚ} {N : ℕ} {i j k : Fin N}
    (h : r2 g N i j k = 0) : gridR g N i j k = 0 := by
  unfold gridR
  rw [h]
  simp

theorem gridZ_zero_of_r2_zero {g : ℚ} {N : ℕ} {i j k : Fin N}
    (h : r2 g N i j k = 0) : gridZ g N i j k = 0 := by
  have hx := sq_nonneg (gridX g N i j k)
  have hy := sq_nonneg (gridY g N i j k)
  have hz := sq_nonneg (gridZ g N i j k)
  have h2 : gridZ g N i j k ^ 2 = 0 := by
    unfold r2 at h; nlinarith
  exact pow_eq_zero_iff (by norm_num) |>.mp h2

theorem gridTheta_none {g : ℚ} {N : ℕ} {i j k : Fin N}
    (h : r2 g N i j k = 0) : gridTheta g N i j k = none := by
  unfold gridTheta clipDiv
  rw [if_pos (gridR_zero h)]
  rw [if_pos (by exact_mod_cast gridZ_zero_of_r2_zero h)]
  rfl

theorem gridTheta_some {g : ℚ} {N : ℕ} {i j k : Fin N}
    (h : r2 g N i j k ≠ 0) :
    gridTheta g N i j k =
      some (Real.arccos (min 1 (max (-1)
        ((gridZ g N i j k : ℝ) / gridR g N i j k)))) := by
  have h0 : 0 ≤ r2 g N i j k := by unfold r2; positivity
  have hpos : 0 < gridR g N i j k := gridR_pos (lt_of_le_of_ne h0 (Ne.symm h))
  unfold gridTheta clipDiv
  rw [if_neg (ne_of_gt hpos)]
  rfl

theorem angular_none (l m : ℤ) (phi : ℝ) :
    angular_wavefunction l m none phi = none := by
  unfold angular_wavefunction sph_harm
  split <;> rfl

theorem angular_some {l m : ℤ} (hm : |m| ≤ l) (θ phi : ℝ) :
    angular_wavefunction l m (some θ) phi =
      some (sphHarmVal m l.toNat phi θ) := by
  unfold angular_wavefunction sph_harm
  rw [if_neg (not_lt.mpr hm)]
  rfl

theorem densityPre_some {n l m : ℤ} {g : ℚ} {N : ℕ} {i j k : Fin N}
    (hm : |m| ≤ l) (hr : r2 g N i j k ≠ 0) :
    ∃ v, densityPre n l m g N i j k = some v ∧ 0 ≤ v := by
  unfold densityPre psiVal
  rw [gridTheta_some hr, angular_some hm]
  exact ⟨_, rfl, pow_nonneg (AbsoluteValue.nonneg _ _) 2⟩

theorem densityField_entries {n l m : ℤ} {g : ℚ} {N : ℕ} (hm : |m| ≤ l) :
    ∀ i j k : Fin N, ∃ v, densityField n l m g N i j k = some v ∧ 0 ≤ v := by
  intro i j k
  unfold densityField
  by_cases hx : 0 ≤ gridX g N i j k
  · rw [if_pos hx]; exact ⟨0, rfl, le_refl 0⟩
  · rw [if_neg hx]
    exact densityPre_some hm (ne_of_gt (r2_pos_of_X_neg (not_le.mp hx)))

theorem genlaguerreEval_zero (α : ℕ) (x : ℝ) : genlaguerreEval 0 α x = 1 := by
  unfold genlaguerreEval glCoeff
  simp

theorem radialValue_1s (r : ℝ) :
    radialValue 1 0 r = Real.sqrt 4 * Real.exp (-(2 * max r floatEps) / 2) := by
  unfold radialValue a0 sfactorial genlaguerreEval glCoeff
  norm_num

theorem radialValue_pos_1s (r : ℝ) : 0 < radialValue 1 0 r := by
  rw [radialValue_1s]
  have hs : (0:ℝ) < Real.sqrt 4 := Real.sqrt_pos.mpr (by norm_num)
  positivity

theorem legendreP_zero_eval (x : ℝ) : (legendreP 0).eval x = 1 := by
  unfold legendreP polyD
  simp

theorem sphHarmVal_00 (azim polar : ℝ) :
    sphHarmVal 0 0 azim polar = ((Real.sqrt (1 / (4 * Real.pi)) : ℝ) : ℂ) := by
  unfold sphHarmVal assocLegendre
  simp [legendreP_zero_eval]

theorem sphHarmVal_00_ne (azim polar : ℝ) : sphHarmVal 0 0 azim polar ≠ 0 := by
  rw [sphHarmVal_00]
  have : (0:ℝ) < Real.sqrt (1 / (4 * Real.pi)) := by
    apply Real.sqrt_pos.mpr
    have := Real.pi_pos
    positivity
  exact_mod_cast ne_of_gt this

theorem linspace_center {N : ℕ} (g : ℚ) (hN : 2 ≤ N) (hodd : N % 2 = 1) :
    linspace g N ⟨(N - 1) / 2, by omega⟩ = 0 := by
  unfold linspace
  have h2d : ((N - 1) / 2 : ℕ) * 2 = N - 1 := by omega
  have hcast : (((N - 1) / 2 : ℕ) : ℚ) * 2 = ((N : ℚ) - 1) := by
    have h3 : (((N - 1) / 2 * 2 : ℕ) : ℚ) = ((N - 1 : ℕ) : ℚ) := by rw [h2d]
    rw [Nat.cast_mul, Nat.cast_sub (by omega : 1 ≤ N)] at h3
    push_cast at h3 ⊢
    linarith
  have hne : ((N : ℚ) - 1) ≠ 0 := by
    have h4 : (2:ℚ) ≤ (N : ℚ) := by exact_mod_cast hN
    linarith
  have hmain : (((N - 1) / 2 : ℕ) : ℚ) * (2 * g / ((N : ℚ) - 1)) = g := by
    rw [show (((N - 1) / 2 : ℕ) : ℚ) * (2 * g / ((N : ℚ) - 1)) =
        ((((N - 1) / 2 : ℕ) : ℚ) * 2) * g / ((N : ℚ) - 1) by ring, hcast]
    exact mul_div_cancel_left₀ g hne
  simp only [hmain]
  ring

theorem radialValue_eq_spec {n l : ℤ} (h0 : 0 ≤ l) (h1 : l ≤ n - 1) (r : ℝ) :
    radialValue n l r = radialSpec n l r := by
  unfold radialValue radialSpec a0 sfactorial
  rw [if_neg (by omega : ¬ n - l - 1 < 0), if_neg (by omega : ¬ n + l < 0)]
  norm_num

theorem radialValue_floor (n l : ℤ) (r : ℝ) :
    radialValue n l r = radialValue n l (max r floatEps) := by
  simp only [radialValue]
  rw [max_assoc, max_self]

/-! The claim theorems. -/

/-- C1 (amended): `compute_density` performs no quantum-number validation and
defines no `InvalidQuantumState` error.  It fails exactly when `l` lies
outside `[0, n-1]` (an interval that is empty when `n < 1`, so every `n < 1`
fails); the failure is a `ZeroDivisionError` from the scalar division
`2/(n*a0)` in the norm computation when `n = 0` — raised before `genlaguerre`
is reached — and, for `n ≠ 0`, the `ValueError` raised by the
Laguerre-polynomial constructor.  In particular `(n, l) = (1, 1)` fails but
with the library `ValueError`, and an invalid `m` such as
`(n, l, m) = (3, 2, 3)` does not fail at all. -/
theorem C1_no_quantum_validation (n l m : ℤ) (g : ℚ) (N : ℕ) :
    ((∃ e, compute_density n l m g N = Except.error e) ↔ (l < 0 ∨ n - 1 < l)) ∧
    (compute_density n l m g N = Except.error PyError.zeroDivisionError ↔
      n = 0) ∧
    (compute_density n l m g N = Except.error PyError.valueError ↔
      (n ≠ 0 ∧ (l < 0 ∨ n - 1 < l))) := by
  refine ⟨⟨?_, ?_⟩, ⟨?_, ?_⟩, ⟨?_, ?_⟩⟩
  · rintro ⟨e, he⟩
    by_contra hc
    push_neg at hc
    rw [compute_density_ok n l m g N (by omega) (by omega)] at he
    exact Except.noConfusion he
  · intro h
    by_cases hn : n = 0
    · exact ⟨PyError.zeroDivisionError, compute_density_err_zero n l m g N hn⟩
    · exact ⟨PyError.valueError, compute_density_err_value n l m g N hn h⟩
  · intro h
    by_cases hn : n = 0
    · exact hn
    · by_cases hval : l < 0 ∨ n - 1 < l
      · rw [compute_density_err_value n l m g N hn hval] at h
        simp at h
      · push_neg at hval
        rw [compute_density_ok n l m g N (by omega) (by omega)] at h
        exact Except.noConfusion h
  · intro h
    exact compute_density_err_zero n l m g N h
  · intro h
    by_cases hn : n = 0
    · rw [compute_density_err_zero n l m g N hn] at h
      simp at h
    · refine ⟨hn, ?_⟩
      by_contra hval
      push_neg at hval
      rw [compute_density_ok n l m g N (by omega) (by omega)] at h
      exact Except.noConfusion h
  · rintro ⟨hn, hval⟩
    exact compute_density_err_value n l m g N hn hval

/-- C1 counterexample: `compute_density` with the invalid state
`(n, l, m) = (3, 2, 3)` (where `|m| > l`) does not fail at all, refuting the
claim that every invalid state is rejected with `InvalidQuantumState`. -/
theorem C1_counterexample : (compute_density 3 2 3 15 10).isOk = true := by
  rw [compute_density_ok 3 2 3 15 10 (by decide) (by decide)]
  rfl

/-- C2: for every valid quantum state, `compute_density` returns the grids
together with the masked density; the returned density is exactly the
pre-mask `|psi|^2` field overwritten with `0` wherever the `X` coordinate is
`≥ 0` — the mask is a post-processing step on `densityPre`, which is defined
with no reference to the mask, and every masked entry is exactly zero. -/
theorem C2_mask_law (n l m : ℤ) (g : ℚ) (N : ℕ) (h0 : 0 ≤ l) (h1 : l ≤ n - 1) :
    compute_density n l m g N =
      Except.ok ⟨gridX g N, gridY g N, gridZ g N, densityField n l m g N⟩ ∧
    ∀ i j k : Fin N,
      densityField n l m g N i j k =
        (if 0 ≤ gridX g N i j k then some 0 else densityPre n l m g N i j k) ∧
      (0 ≤ gridX g N i j k → densityField n l m g N i j k = some 0) := by
  refine ⟨compute_density_ok n l m g N h0 h1, fun i j k => ⟨rfl, fun hx => ?_⟩⟩
  unfold densityField
  rw [if_pos hx]

theorem C2_mask_law_witness :
    compute_density 1 0 0 15 2 =
      Except.ok ⟨gridX 15 2, gridY 15 2, gridZ 15 2, densityField 1 0 0 15 2⟩ ∧
    ∀ i j k : Fin 2,
      densityField 1 0 0 15 2 i j k =
        (if 0 ≤ gridX 15 2 i j k then some 0 else densityPre 1 0 0 15 2 i j k) ∧
      (0 ≤ gridX 15 2 i j k → densityField 1 0 0 15 2 i j k = some 0) :=
  C2_mask_law 1 0 0 15 2 (by decide) (by decide)

/-- C3: for every valid `(n, l)` the radial evaluator succeeds and returns,
elementwise and with the shape of its input array, exactly the spec formula
`norm * exp(-rho/2) * rho^l * L(rho)` with `rho = 2r/n` after flooring `r`,
`L` the generalized Laguerre polynomial of degree `n-l-1` with parameter
`2l+1`, and `norm = sqrt((2/n)^3 (n-l-1)! / (2n (n+l)!))`; the value is a
real number (the codomain of `radialSpec` is `ℝ`). -/
theorem C3_radial_formula (n l : ℤ) (h0 : 0 ≤ l) (h1 : l ≤ n - 1) :
    (∀ (ι : Type) (rv : ι → ℝ),
        radialArray n l rv = Except.ok (fun t => radialSpec n l (rv t))) ∧
    ∀ r : ℝ, radial_wavefunction n l r = Except.ok (radialSpec n l r) := by
  have hv := valid_no_raise h0 h1
  have hn : ¬ n = 0 := by omega
  constructor
  · intro ι rv
    unfold radialArray
    rw [if_neg hn, if_neg hv]
    exact congrArg Except.ok (funext fun t => radialValue_eq_spec h0 h1 (rv t))
  · intro r
    unfold radial_wavefunction
    rw [if_neg hn, if_neg hv, radialValue_eq_spec h0 h1 r]

theorem C3_radial_formula_witness :
    (∀ (ι : Type) (rv : ι → ℝ),
        radialArray 1 0 rv = Except.ok (fun t => radialSpec 1 0 (rv t))) ∧
    ∀ r : ℝ, radial_wavefunction 1 0 r = Except.ok (radialSpec 1 0 r) :=
  C3_radial_formula 1 0 (by decide) (by decide)

/-- C4: for every valid quantum state, the radial evaluator raises no
exception on any radius: it returns `Except.ok` for every real `r`, its value
depends on `r` only through the floor `max r 1e-10` applied before the
division by `n`, and at `r = 0` it returns the (finite, real) value taken at
the epsilon `1e-10` itself. -/
theorem C4_epsilon_floor (n l : ℤ) (h0 : 0 ≤ l) (h1 : l ≤ n - 1) :
    (∀ r : ℝ, radial_wavefunction n l r = Except.ok (radialValue n l r) ∧
        radialValue n l r = radialValue n l (max r floatEps)) ∧
    radial_wavefunction n l 0 = Except.ok (radialValue n l floatEps) := by
  have hv := valid_no_raise h0 h1
  have hn : ¬ n = 0 := by omega
  constructor
  · intro r
    exact ⟨by unfold radial_wavefunction; rw [if_neg hn, if_neg hv],
      radialValue_floor n l r⟩
  · unfold radial_wavefunction
    rw [if_neg hn, if_neg hv, radialValue_floor n l 0]
    congr 2
    exact max_eq_right (by unfold floatEps; positivity)

theorem C4_epsilon_floor_witness :
    (∀ r : ℝ, radial_wavefunction 1 0 r = Except.ok (radialValue 1 0 r) ∧
        radialValue 1 0 r = radialValue 1 0 (max r floatEps)) ∧
    radial_wavefunction 1 0 0 = Except.ok (radialValue 1 0 floatEps) :=
  C4_epsilon_floor 1 0 (by decide) (by decide)

/-- C5 counterexample: on the grid with extent 1 and resolution 3, the center
point is the exact origin and its polar angle theta is NaN — so theta is NOT
computed from a radius clamped away from zero, refuting the claim. -/
theorem C5_counterexample : gridTheta 1 3 1 1 1 = none :=
  gridTheta_none (by norm_num [r2, gridX, gridY, gridZ, linspace])

/-- C5 (amended): in the grid the radius is NOT clamped before the spherical
angles are derived: `theta = arccos(clip(Z/r, -1, 1))` uses the raw radius
`r = sqrt(X^2+Y^2+Z^2)`, so at any grid point where that radius vanishes the
quotient is `0/0` and theta is NaN (`none`); `phi = atan2(Y, X)`.  The
epsilon floor exists only inside the radial evaluator (see C4). -/
theorem C5_theta_unclamped (g : ℚ) (N : ℕ) (i j k : Fin N)
    (h : r2 g N i j k = 0) :
    gridR g N i j k = 0 ∧ gridZ g N i j k = 0 ∧ gridTheta g N i j k = none ∧
    gridTheta g N i j k =
      Option.map Real.arccos (clipDiv ((gridZ g N i j k : ℝ)) (gridR g N i j k)) ∧
    gridPhi g N i j k =
      atan2 ((gridY g N i j k : ℝ)) ((gridX g N i j k : ℝ)) :=
  ⟨gridR_zero h, gridZ_zero_of_r2_zero h, gridTheta_none h, rfl, rfl⟩

theorem C5_theta_unclamped_witness :
    gridR 1 3 1 1 1 = 0 ∧ gridZ 1 3 1 1 1 = 0 ∧ gridTheta 1 3 1 1 1 = none ∧
    gridTheta 1 3 1 1 1 =
      Option.map Real.arccos (clipDiv ((gridZ 1 3 1 1 1 : ℝ)) (gridR 1 3 1 1 1)) ∧
    gridPhi 1 3 1 1 1 = atan2 ((gridY 1 3 1 1 1 : ℝ)) ((gridX 1 3 1 1 1 : ℝ)) :=
  C5_theta_unclamped 1 3 1 1 1 (by norm_num [r2, gridX, gridY, gridZ, linspace])

/-- C6: `compute_density` with `n=1, l=0, m=0`, extent 15, resolution 10
succeeds, and the returned field — of shape 10×10×10 by the typing of
`OrbitalField 10` — has every entry a genuine real `≥ 0` and at least one
nonzero entry. -/
theorem C6_smoke_1s :
    ∃ res : OrbitalField 10,
      compute_density 1 0 0 15 10 = Except.ok res ∧
      (∀ i j k : Fin 10, ∃ v, res.density i j k = some v ∧ 0 ≤ v) ∧
      (∃ (i j k : Fin 10) (v : ℝ), res.density i j k = some v ∧ v ≠ 0) := by
  refine ⟨_, compute_density_ok 1 0 0 15 10 (by decide) (by decide),
    fun i j k => densityField_entries (by decide) i j k, 0, 0, 0, ?_⟩
  have hx : gridX 15 10 0 0 0 < 0 := by norm_num [gridX, linspace]
  have hr2 : r2 15 10 0 0 0 ≠ 0 := ne_of_gt (r2_pos_of_X_neg hx)
  have hmask : densityField 1 0 0 15 10 0 0 0 = densityPre 1 0 0 15 10 0 0 0 := by
    unfold densityField
    rw [if_neg (not_le.mpr hx)]
  show ∃ v, densityField 1 0 0 15 10 0 0 0 = some v ∧ v ≠ 0
  rw [hmask]
  unfold densityPre psiVal
  rw [gridTheta_some hr2, angular_some (by decide)]
  simp only [Option.map_some']
  refine ⟨_, rfl, ?_⟩
  have hR : ((radialValue 1 0 (gridR 15 10 0 0 0) : ℝ) : ℂ) ≠ 0 :=
    Complex.ofReal_ne_zero.mpr (ne_of_gt (radialValue_pos_1s _))
  have hY : sphHarmVal 0 ((0:ℤ).toNat) (gridPhi 15 10 0 0 0)
      (Real.arccos (min 1 (max (-1)
        ((gridZ 15 10 0 0 0 : ℝ) / gridR 15 10 0 0 0)))) ≠ 0 :=
    sphHarmVal_00_ne _ _
  exact pow_ne_zero 2 ((AbsoluteValue.ne_zero_iff _).mpr (mul_ne_zero hR hY))

/-- C7 counterexample: `compute_density` with extent `-5 ≤ 0` and resolution
`1 < 2` succeeds instead of failing with `InvalidGridSpec`, refuting the
claim that invalid grid specifications are rejected. -/
theorem C7_counterexample : (compute_density 1 0 0 (-5) 1).isOk = true := by
  rw [compute_density_ok 1 0 0 (-5) 1 (by decide) (by decide)]
  rfl

/-- C7 (amended): `compute_density` performs no grid validation and defines no
`InvalidGridSpec` error: with valid quantum numbers it succeeds and computes a
field for every grid specification, including extent `≤ 0` or resolution
`< 2`. -/
theorem C7_no_grid_validation (n l m : ℤ) (g : ℚ) (N : ℕ)
    (h0 : 0 ≤ l) (h1 : l ≤ n - 1) (hbad : g ≤ 0 ∨ N < 2) :
    (compute_density n l m g N).isOk = true := by
  rw [compute_density_ok n l m g N h0 h1]
  rfl

theorem C7_no_grid_validation_witness : (compute_density 2 1 0 (-5) 1).isOk = true :=
  C7_no_grid_validation 2 1 0 (-5) 1 (by decide) (by decide) (Or.inr (by decide))

/-- C8: for every valid quantum state and every grid (with at least one
sample so that a maximum can exist), `compute_density` returns the field
whose shape is `N × N × N` by typing, every entry is a genuine real (`some`)
and non-negative, and the field attains a maximum value `M` bounding every
entry — the maximum is well-defined. -/
theorem C8_nonneg_bounded (n l m : ℤ) (g : ℚ) (N : ℕ)
    (h0 : 0 ≤ l) (h1 : l ≤ n - 1) (hm : |m| ≤ l) (hN : 1 ≤ N) :
    compute_density n l m g N =
      Except.ok ⟨gridX g N, gridY g N, gridZ g N, densityField n l m g N⟩ ∧
    (∀ i j k : Fin N, ∃ v, densityField n l m g N i j k = some v ∧ 0 ≤ v) ∧
    ∃ M : ℝ, (∃ i j k : Fin N, densityField n l m g N i j k = some M) ∧
      ∀ (i j k : Fin N) (v : ℝ), densityField n l m g N i j k = some v → v ≤ M := by
  refine ⟨compute_density_ok n l m g N h0 h1, densityField_entries hm, ?_⟩
  have hne : (Finset.univ : Finset (Fin N × Fin N × Fin N)).Nonempty :=
    ⟨(⟨0, hN⟩, ⟨0, hN⟩, ⟨0, hN⟩), Finset.mem_univ _⟩
  refine ⟨Finset.univ.sup' hne
    (fun t => (densityField n l m g N t.1 t.2.1 t.2.2).getD 0), ?_, ?_⟩
  · obtain ⟨b, _, hb⟩ := Finset.exists_mem_eq_sup' hne
      (fun t => (densityField n l m g N t.1 t.2.1 t.2.2).getD 0)
    obtain ⟨v, hv, _⟩ := densityField_entries hm b.1 b.2.1 b.2.2
    refine ⟨b.1, b.2.1, b.2.2, ?_⟩
    rw [hb, hv]
    simp
  · intro i j k v hv
    have hle := Finset.le_sup'
      (fun t : Fin N × Fin N × Fin N => (densityField n l m g N t.1 t.2.1 t.2.2).getD 0)
      (Finset.mem_univ (i, j, k))
    rw [hv] at hle
    simpa using hle

theorem C8_nonneg_bounded_witness :
    compute_density 1 0 0 15 2 =
      Except.ok ⟨gridX 15 2, gridY 15 2, gridZ 15 2, densityField 1 0 0 15 2⟩ ∧
    (∀ i j k : Fin 2, ∃ v, densityField 1 0 0 15 2 i j k = some v ∧ 0 ≤ v) ∧
    ∃ M : ℝ, (∃ i j k : Fin 2, densityField 1 0 0 15 2 i j k = some M) ∧
      ∀ (i j k : Fin 2) (v : ℝ), densityField 1 0 0 15 2 i j k = some v → v ≤ M :=
  C8_nonneg_bounded 1 0 0 15 2 (by decide) (by decide) (by decide) (by decide)

/-- C9: `compute_density` is modelled as a pure function — it reads and
writes no state — and it is deterministic: two invocations with equal
inputs `(n, l, m, extent, resolution)` return equal results (coordinate
arrays and density field alike). -/
theorem C9_deterministic (n n2 l l2 m m2 : ℤ) (g g2 : ℚ) (N : ℕ)
    (hn : n = n2) (hl : l = l2) (hm : m = m2) (hg : g = g2) :
    compute_density n l m g N = compute_density n2 l2 m2 g2 N := by
  subst hn hl hm hg
  rfl

theorem C9_deterministic_witness :
    compute_density 1 0 0 15 3 = compute_density 1 0 0 15 3 :=
  C9_deterministic 1 1 0 0 0 0 15 15 3 rfl rfl rfl rfl

/-- C10: for every odd resolution `N` (a GridSpec resolution, hence `N ≥ 2`)
the center sample `c = (N-1)/2` of each axis is exactly `0`, so the grid
contains the exact origin; there the radius vanishes, the polar angle theta
is NaN (`none`), and the pre-mask density is NaN — yet the returned field has
no NaN entry, because the origin has `X = 0` and the inclusive mask `X ≥ 0`
overwrites it with zero, and for a valid state every other entry is a genuine
real. -/
theorem C10_origin_nan_masked (n l m : ℤ) (g : ℚ) (N : ℕ) (c : Fin N)
    (hN : 2 ≤ N) (hodd : N % 2 = 1) (hm : |m| ≤ l) (hc : (c : ℕ) = (N - 1) / 2) :
    gridX g N c c c = 0 ∧ gridY g N c c c = 0 ∧ gridZ g N c c c = 0 ∧
    r2 g N c c c = 0 ∧ gridTheta g N c c c = none ∧
    densityPre n l m g N c c c = none ∧ densityField n l m g N c c c = some 0 ∧
    ∀ i j k : Fin N, ∃ v, densityField n l m g N i j k = some v := by
  have hcc : c = ⟨(N - 1) / 2, by omega⟩ := Fin.ext hc
  have hlin : linspace g N c = 0 := by rw [hcc]; exact linspace_center g hN hodd
  have hx : gridX g N c c c = 0 := hlin
  have hy : gridY g N c c c = 0 := hlin
  have hz : gridZ g N c c c = 0 := hlin
  have hr2 : r2 g N c c c = 0 := by unfold r2; rw [hx, hy, hz]; ring
  refine ⟨hx, hy, hz, hr2, gridTheta_none hr2, ?_, ?_, ?_⟩
  · unfold densityPre psiVal
    rw [gridTheta_none hr2, angular_none]
    rfl
  · unfold densityField
    rw [if_pos (le_of_eq hx.symm)]
  · intro i j k
    obtain ⟨v, hv, _⟩ := densityField_entries hm i j k
    exact ⟨v, hv⟩

theorem C10_origin_nan_masked_witness :
    gridX 15 3 1 1 1 = 0 ∧ gridY 15 3 1 1 1 = 0 ∧ gridZ 15 3 1 1 1 = 0 ∧
    r2 15 3 1 1 1 = 0 ∧ gridTheta 15 3 1 1 1 = none ∧
    densityPre 1 0 0 15 3 1 1 1 = none ∧ densityField 1 0 0 15 3 1 1 1 = some 0 ∧
    ∀ i j k : Fin 3, ∃ v, densityField 1 0 0 15 3 i j k = some v :=
  C10_origin_nan_masked 1 0 0 15 3 1 (by decide) (by decide) (by decide) (by decide)

end Orbitals
